import Mathlib

/-!
# leakdb-curator command surface (`internal/curator/cmd.go`)

A shallow embedding of the flag constants, the `init` function that registers
every flag on every cobra command, and `Execute`.

* The flag library (`pflag`) is embedded as an ordered list of flags per
  command; `FlagSet.AddFlag` reproduces the two redefinition panics and the
  over-long shorthand panic as `Except.error`.
* `runtime.NumCPU()` is an input of `init` (a Go `int`); `uint(...)` is the
  64-bit conversion `toUint`.
* `FlagSet.Set` takes the argument text read at its type and keeps the type's
  checks: a `uint` flag holds 64 bits, a string slice appends once changed.
* `Execute` is a function from the result of `rootCmd.Execute()` to the trace
  of observable events (lines printed, process exit).
-/

namespace Curator

/-! ## Constants -/

def jsonFlagStr : String := "json"
def indexFlagStr : String := "index"
def outputFlagStr : String := "output"
def outputAppendFlagStr : String := "append"

def detailsFlagStr : String := "details"

def configFlagStr : String := "conf"
def generateFlagStr : String := "generate"
def keysFlagStr : String := "keys"
def bloomWorkersFlagStr : String := "workers-bloom"
def indexWorkersFlagStr : String := "workers-index"
def sortWorkersFlagStr : String := "workers-sort"

def targetFlagStr : String := "target"
def formatFlagStr : String := "format"
def recursiveFlagStr : String := "recursive"
def skipPrefixFlagStr : String := "skip-prefix"
def skipSuffixFlagStr : String := "skip-suffix"

def workersFlagStr : String := "workers"
def filterSizeFlagStr : String := "filter-size"
def filterHashesFlagStr : String := "filter-hashes"
def filterLoadFlagStr : String := "filter-load"
def filterSaveFlagStr : String := "filter-save"

def keyFlagStr : String := "key"
def noCleanupFlagStr : String := "no-cleanup"

def tempDirFlagStr : String := "temp"

def maxMemoryFlagStr : String := "max-memory"
def checkFlagStr : String := "check"
def maxGoRoutinesFlagStr : String := "max-goroutines"

def valueFlagStr : String := "value"
def verboseFlagStr : String := "verbose"

def defaultMaxMemory : Nat := 1024

def normal : String := "\x1b[0m"
def black : String := "\x1b[30m"
def red : String := "\x1b[31m"
def green : String := "\x1b[32m"
def orange : String := "\x1b[33m"
def blue : String := "\x1b[34m"
def purple : String := "\x1b[35m"
def cyan : String := "\x1b[36m"
def gray : String := "\x1b[37m"
def bold : String := "\x1b[1m"
def clearln : String := "\r\x1b[2K"
def upN : String := "\x1b[%dA"
def downN : String := "\x1b[%dB"
def underline : String := "\x1b[4m"

/-- Info - Display colorful information -/
def Info : String := bold ++ cyan ++ "[*] " ++ normal
/-- Warn - Warn a user -/
def Warn : String := bold ++ red ++ "[!] " ++ normal
/-- Debug - Display debug information -/
def Debug : String := bold ++ purple ++ "[-] " ++ normal
/-- Woot - Display success -/
def Woot : String := bold ++ green ++ "[$] " ++ normal

def kb : Nat := 1024
def mb : Nat := kb * 1024
def gb : Nat := mb * 1024

/-! ## Flags and flag sets (the part of `pflag` that `init` exercises) -/

/-- The typed value of a flag: `BoolP`, `StringP`, `UintP`, `StringSliceP`. -/
inductive Value where
  | bool (b : Bool)
  | str (s : String)
  | uint (n : Nat)
  | strSlice (l : List String)
  deriving DecidableEq, Repr

/-- A registered flag: long name, shorthand, help text, default and current value, and
whether the flag has been set (`Changed`; a string slice's own changed mark moves with it,
both being raised by the first successful `Set`). -/
structure Flag where
  name : String
  shorthand : String
  usage : String
  defValue : Value
  value : Value
  changed : Bool
  deriving DecidableEq, Repr

/-- A flag set, in registration order. -/
abbrev FlagSet := List Flag

/-- Long names of a flag set, in registration order. -/
def FlagSet.names (fs : FlagSet) : List String := fs.map Flag.name

/-- Shorthands in use in a flag set (flags without a shorthand do not occupy one). -/
def FlagSet.shorthands (fs : FlagSet) : List String :=
  (fs.map Flag.shorthand).filter (fun s => s != "")

/-- Look a flag up by its long name (`FlagSet.Lookup`). -/
def FlagSet.Lookup (fs : FlagSet) (name : String) : Option Flag :=
  fs.find? (fun f => f.name == name)

/-- Look a flag up by its one-letter shorthand (`FlagSet.ShorthandLookup`): nothing for the
empty shorthand, and an error for the library panic on a shorthand longer than one byte. -/
def FlagSet.ShorthandLookup (fs : FlagSet) (name : String) : Except String (Option Flag) :=
  if name == "" then
    .ok none
  else if name.utf8ByteSize > 1 then
    .error ("can not look up shorthand which is more than one ASCII character: " ++ name)
  else
    .ok (fs.find? (fun f => f.shorthand == name))

/-- Register a flag (`FlagSet.AddFlag`): an error stands for each of the library panics. -/
def FlagSet.AddFlag (fs : FlagSet) (flag : Flag) : Except String FlagSet :=
  if fs.any (fun g => g.name == flag.name) then
    .error ("flag redefined: " ++ flag.name)
  else if flag.shorthand == "" then
    .ok (fs ++ [flag])
  else if flag.shorthand.utf8ByteSize > 1 then
    .error (flag.shorthand ++ " shorthand is more than one ASCII character")
  else if fs.any (fun g => g.shorthand != "" && g.shorthand == flag.shorthand) then
    .error ("unable to redefine shorthand " ++ flag.shorthand)
  else
    .ok (fs ++ [flag])

/-- The value a flag takes when it is set (`Value.Set` of each flag type). The argument is the
command-line text read at its type: the boolean, the string, the number the digits denote, or
the comma-separated fields. A `uint` flag holds 64 bits, so a number from 2^64 on is a range
error; a string slice is replaced by the first `Set` and appended to by every later one; text
that does not read at the flag's type is a syntax error. -/
def Value.Set (old : Value) (changed : Bool) (arg : Value) : Except String Value :=
  match old, arg with
  | .bool _, .bool b => .ok (.bool b)
  | .str _, .str s => .ok (.str s)
  | .uint _, .uint n =>
    if n < 2 ^ 64 then .ok (.uint n) else .error "value out of range"
  | .strSlice l, .strSlice rv => .ok (.strSlice (if changed then l ++ rv else rv))
  | _, _ => .error "invalid syntax"

/-- Store `v` in the flag called `name` and mark it changed, leaving every other flag alone. -/
def FlagSet.replace (fs : FlagSet) (name : String) (v : Value) : FlagSet :=
  fs.map (fun f => if f.name == name then { f with value := v, changed := true } else f)

/-- Set a flag by long name (`FlagSet.Set`): an unknown name and a value the flag's type
rejects are errors, otherwise the flag holds the new value and is marked changed. -/
def FlagSet.Set (fs : FlagSet) (name : String) (arg : Value) : Except String FlagSet :=
  match fs.Lookup name with
  | none => .error ("no such flag -" ++ name)
  | some f =>
    match f.value.Set f.changed arg with
    | .error e => .error ("invalid argument for flag --" ++ name ++ ": " ++ e)
    | .ok v => .ok (fs.replace name v)

/-- Current value of a flag, by long name. -/
def FlagSet.valueOf (fs : FlagSet) (name : String) : Option Value :=
  (fs.Lookup name).map Flag.value

/-- Default value of a flag, by long name. -/
def FlagSet.defaultOf (fs : FlagSet) (name : String) : Option Value :=
  (fs.Lookup name).map Flag.defValue

/-- Help text of a flag, by long name. -/
def FlagSet.usageOf (fs : FlagSet) (name : String) : Option String :=
  (fs.Lookup name).map Flag.usage

/-! ## Commands -/

/-- The cobra commands that `init` configures. -/
inductive Cmd where
  | rootCmd | versionCmd | normalizeCmd | bloomCmd | indexCmd | sortCmd | searchCmd | parquetCmd
  deriving DecidableEq, Repr

open Cmd

/-- The package-level command variables: each command's flag set, and the root's children. -/
structure Registry where
  root : FlagSet
  version : FlagSet
  normalize : FlagSet
  bloom : FlagSet
  index : FlagSet
  sort : FlagSet
  search : FlagSet
  parquet : FlagSet
  commands : List Cmd
  deriving DecidableEq, Repr

/-- State before `init`: no flags, no subcommands. -/
def Registry.empty : Registry := ⟨[], [], [], [], [], [], [], [], []⟩

/-- The flag set of a command (`cmd.Flags()`). -/
def Registry.Flags (r : Registry) : Cmd → FlagSet
  | rootCmd => r.root
  | versionCmd => r.version
  | normalizeCmd => r.normalize
  | bloomCmd => r.bloom
  | indexCmd => r.index
  | sortCmd => r.sort
  | searchCmd => r.search
  | parquetCmd => r.parquet

/-- Store a command's flag set back. -/
def Registry.setFlags (r : Registry) (c : Cmd) (fs : FlagSet) : Registry :=
  match c with
  | rootCmd => { r with root := fs }
  | versionCmd => { r with version := fs }
  | normalizeCmd => { r with normalize := fs }
  | bloomCmd => { r with bloom := fs }
  | indexCmd => { r with index := fs }
  | sortCmd => { r with sort := fs }
  | searchCmd => { r with search := fs }
  | parquetCmd => { r with parquet := fs }

/-- Register a flag on a command with `value` as default and current value, not yet changed. -/
def Registry.VarP (r : Registry) (c : Cmd) (name short : String) (value : Value)
    (usage : String) : Except String Registry :=
  match (r.Flags c).AddFlag ⟨name, short, usage, value, value, false⟩ with
  | .ok fs => .ok (r.setFlags c fs)
  | .error e => .error e

def Registry.BoolP (r : Registry) (c : Cmd) (name short : String) (value : Bool)
    (usage : String) : Except String Registry :=
  r.VarP c name short (.bool value) usage

def Registry.StringP (r : Registry) (c : Cmd) (name short : String) (value : String)
    (usage : String) : Except String Registry :=
  r.VarP c name short (.str value) usage

def Registry.UintP (r : Registry) (c : Cmd) (name short : String) (value : Nat)
    (usage : String) : Except String Registry :=
  r.VarP c name short (.uint value) usage

def Registry.StringSliceP (r : Registry) (c : Cmd) (name short : String) (value : List String)
    (usage : String) : Except String Registry :=
  r.VarP c name short (.strSlice value) usage

/-- Attach a subcommand to the root (`rootCmd.AddCommand`); a command cannot be its own child. -/
def Registry.AddCommand (r : Registry) (child : Cmd) : Except String Registry :=
  if child = rootCmd then .error "Command can't be a child of itself"
  else .ok { r with commands := r.commands ++ [child] }

/-- Go's `uint(x)` for an `int` x on a 64-bit platform. -/
def toUint (x : Int) : Nat := (x % 2 ^ 64).toNat

/-- The package `init` function; `numCPU` is the value of `runtime.NumCPU()`. -/
def init (numCPU : Int) : Except String Registry := do
  let r := Registry.empty
  -- Version
  let r ← r.BoolP versionCmd detailsFlagStr "d" false "show additional version details"
  let r ← r.AddCommand versionCmd
  -- Main
  let r ← r.StringSliceP rootCmd keysFlagStr "k" ["user", "email"]
    "Comma separated list of key(s): email, user, domain"
  let r ← r.StringP rootCmd tempDirFlagStr "T" "" "directory for temp files (default: cwd)"
  let r ← r.StringP rootCmd jsonFlagStr "j" "" "input file/directory of normalized json file(s)"
  let r ← r.StringP rootCmd outputFlagStr "o" "" "output directory"
  let r ← r.UintP rootCmd bloomWorkersFlagStr "W" 1 "max number of bloom filter workers"
  let r ← r.UintP rootCmd indexWorkersFlagStr "w" (toUint numCPU) "max number of index workers"
  let r ← r.UintP rootCmd sortWorkersFlagStr "s" (toUint numCPU) "max number of sort workers"
  let r ← r.UintP rootCmd filterSizeFlagStr "F" 8 "bloom filter size in GBs"
  let r ← r.UintP rootCmd filterHashesFlagStr "f" 14 "number of bloom filter hash functions"
  let r ← r.StringP rootCmd filterLoadFlagStr "L" "" "load existing bloom filter from saved file"
  let r ← r.StringP rootCmd filterSaveFlagStr "S" "" "save bloom filter to file when complete"
  let r ← r.UintP rootCmd maxMemoryFlagStr "m" defaultMaxMemory
    "max memory in MBs, this is not exact! See detailed --help"
  -- Normalize
  let r ← r.StringP normalizeCmd targetFlagStr "t" "" "target directory of files"
  let r ← r.StringP normalizeCmd formatFlagStr "f" "" "target format (see detailed help)"
  let r ← r.StringP normalizeCmd outputFlagStr "o" "" "output json file of normalized data"
  let r ← r.BoolP normalizeCmd recursiveFlagStr "r" false "recursively scan directory"
  let r ← r.StringP normalizeCmd skipPrefixFlagStr "p" "" "skip files with prefix"
  let r ← r.StringP normalizeCmd skipSuffixFlagStr "s" "" "skip files with suffix"
  let r ← r.AddCommand normalizeCmd
  -- Bloom
  let r ← r.StringP bloomCmd jsonFlagStr "j" "" "input directory of normalized json file(s)"
  let r ← r.StringP bloomCmd outputFlagStr "o" "" "output json file"
  let r ← r.BoolP bloomCmd outputAppendFlagStr "a" false "append output file"
  let r ← r.UintP bloomCmd workersFlagStr "w" 1 "number of worker threads"
  let r ← r.UintP bloomCmd filterSizeFlagStr "s" 8 "bloom filter size in GBs"
  let r ← r.UintP bloomCmd filterHashesFlagStr "f" 14 "number of bloom filter hash functions"
  let r ← r.StringP bloomCmd filterLoadFlagStr "L" "" "load existing bloom filter from saved file"
  let r ← r.StringP bloomCmd filterSaveFlagStr "S" "" "save bloom filter to file when complete"
  let r ← r.AddCommand bloomCmd
  -- Indexer
  let r ← r.StringP indexCmd jsonFlagStr "j" "" "json input file"
  let r ← r.StringP indexCmd outputFlagStr "o" "leakdb.idx" "output index file"
  let r ← r.UintP indexCmd workersFlagStr "w" (toUint numCPU) "number of worker threads"
  let r ← r.StringP indexCmd keyFlagStr "k" "email" "index key can be: email, user, or domain"
  let r ← r.BoolP indexCmd noCleanupFlagStr "N" false "skip cleanup of temp file(s)"
  let r ← r.StringP indexCmd tempDirFlagStr "T" "" "directory for temp files (default: cwd)"
  let r ← r.AddCommand indexCmd
  -- Sorter
  let r ← r.StringP sortCmd indexFlagStr "i" "" "index file to sort"
  let r ← r.StringP sortCmd outputFlagStr "o" "" "output index file"
  let r ← r.UintP sortCmd workersFlagStr "w" (toUint numCPU) "number of worker threads"
  let r ← r.UintP sortCmd maxMemoryFlagStr "m" defaultMaxMemory
    "max memory in MBs, this is not exact! See detailed --help"
  let r ← r.StringP sortCmd tempDirFlagStr "T" "" "directory for temp files (default: cwd)"
  let r ← r.BoolP sortCmd noCleanupFlagStr "N" false "skip cleanup temp file(s)"
  let r ← r.AddCommand sortCmd
  -- Search
  let r ← r.StringP searchCmd indexFlagStr "i" "" "index file to search"
  let r ← r.StringP searchCmd jsonFlagStr "j" "" "original json file"
  let r ← r.StringP searchCmd valueFlagStr "v" "" "value to search for"
  let r ← r.AddCommand searchCmd
  -- Parquet
  let r ← r.StringP parquetCmd targetFlagStr "t" "" "target JSON file to convert"
  let r ← r.StringP parquetCmd outputFlagStr "o" "leakdb-parquet" "output directory name"
  let r ← r.AddCommand parquetCmd
  return r

/-- Closed form of the registry that `init` builds: every command with its flags in
registration order. `init_eq` proves that `init` returns exactly this value. -/
def initRegistry (numCPU : Int) : Registry where
  root := [
   ⟨keysFlagStr, "k", "Comma separated list of key(s): email, user, domain", (.strSlice ["user", "email"]), (.strSlice ["user", "email"]), false⟩,
   ⟨tempDirFlagStr, "T", "directory for temp files (default: cwd)", (.str ""), (.str ""), false⟩,
   ⟨jsonFlagStr, "j", "input file/directory of normalized json file(s)", (.str ""), (.str ""), false⟩,
   ⟨outputFlagStr, "o", "output directory", (.str ""), (.str ""), false⟩,
   ⟨bloomWorkersFlagStr, "W", "max number of bloom filter workers", (.uint 1), (.uint 1), false⟩,
   ⟨indexWorkersFlagStr, "w", "max number of index workers", (.uint (toUint numCPU)), (.uint (toUint numCPU)), false⟩,
   ⟨sortWorkersFlagStr, "s", "max number of sort workers", (.uint (toUint numCPU)), (.uint (toUint numCPU)), false⟩,
   ⟨filterSizeFlagStr, "F", "bloom filter size in GBs", (.uint 8), (.uint 8), false⟩,
   ⟨filterHashesFlagStr, "f", "number of bloom filter hash functions", (.uint 14), (.uint 14), false⟩,
   ⟨filterLoadFlagStr, "L", "load existing bloom filter from saved file", (.str ""), (.str ""), false⟩,
   ⟨filterSaveFlagStr, "S", "save bloom filter to file when complete", (.str ""), (.str ""), false⟩,
   ⟨maxMemoryFlagStr, "m", "max memory in MBs, this is not exact! See detailed --help", (.uint defaultMaxMemory), (.uint defaultMaxMemory), false⟩]
  version := [
   ⟨detailsFlagStr, "d", "show additional version details", (.bool false), (.bool false), false⟩]
  normalize := [
   ⟨targetFlagStr, "t", "target directory of files", (.str ""), (.str ""), false⟩,
   ⟨formatFlagStr, "f", "target format (see detailed help)", (.str ""), (.str ""), false⟩,
   ⟨outputFlagStr, "o", "output json file of normalized data", (.str ""), (.str ""), false⟩,
   ⟨recursiveFlagStr, "r", "recursively scan directory", (.bool false), (.bool false), false⟩,
   ⟨skipPrefixFlagStr, "p", "skip files with prefix", (.str ""), (.str ""), false⟩,
   ⟨skipSuffixFlagStr, "s", "skip files with suffix", (.str ""), (.str ""), false⟩]
  bloom := [
   ⟨jsonFlagStr, "j", "input directory of normalized json file(s)", (.str ""), (.str ""), false⟩,
   ⟨outputFlagStr, "o", "output json file", (.str ""), (.str ""), false⟩,
   ⟨outputAppendFlagStr, "a", "append output file", (.bool false), (.bool false), false⟩,
   ⟨workersFlagStr, "w", "number of worker threads", (.uint 1), (.uint 1), false⟩,
   ⟨filterSizeFlagStr, "s", "bloom filter size in GBs", (.uint 8), (.uint 8), false⟩,
   ⟨filterHashesFlagStr, "f", "number of bloom filter hash functions", (.uint 14), (.uint 14), false⟩,
   ⟨filterLoadFlagStr, "L", "load existing bloom filter from saved file", (.str ""), (.str ""), false⟩,
   ⟨filterSaveFlagStr, "S", "save bloom filter to file when complete", (.str ""), (.str ""), false⟩]
  index := [
   ⟨jsonFlagStr, "j", "json input file", (.str ""), (.str ""), false⟩,
   ⟨outputFlagStr, "o", "output index file", (.str "leakdb.idx"), (.str "leakdb.idx"), false⟩,
   ⟨workersFlagStr, "w", "number of worker threads", (.uint (toUint numCPU)), (.uint (toUint numCPU)), false⟩,
   ⟨keyFlagStr, "k", "index key can be: email, user, or domain", (.str "email"), (.str "email"), false⟩,
   ⟨noCleanupFlagStr, "N", "skip cleanup of temp file(s)", (.bool false), (.bool false), false⟩,
   ⟨tempDirFlagStr, "T", "directory for temp files (default: cwd)", (.str ""), (.str ""), false⟩]
  sort := [
   ⟨indexFlagStr, "i", "index file to sort", (.str ""), (.str ""), false⟩,
   ⟨outputFlagStr, "o", "output index file", (.str ""), (.str ""), false⟩,
   ⟨workersFlagStr, "w", "number of worker threads", (.uint (toUint numCPU)), (.uint (toUint numCPU)), false⟩,
   ⟨maxMemoryFlagStr, "m", "max memory in MBs, this is not exact! See detailed --help", (.uint defaultMaxMemory), (.uint defaultMaxMemory), false⟩,
   ⟨tempDirFlagStr, "T", "directory for temp files (default: cwd)", (.str ""), (.str ""), false⟩,
   ⟨noCleanupFlagStr, "N", "skip cleanup temp file(s)", (.bool false), (.bool false), false⟩]
  search := [
   ⟨indexFlagStr, "i", "index file to search", (.str ""), (.str ""), false⟩,
   ⟨jsonFlagStr, "j", "original json file", (.str ""), (.str ""), false⟩,
   ⟨valueFlagStr, "v", "value to search for", (.str ""), (.str ""), false⟩]
  parquet := [
   ⟨targetFlagStr, "t", "target JSON file to convert", (.str ""), (.str ""), false⟩,
   ⟨outputFlagStr, "o", "output directory name", (.str "leakdb-parquet"), (.str "leakdb-parquet"), false⟩]
  commands := [versionCmd, normalizeCmd, bloomCmd, indexCmd, sortCmd, searchCmd, parquetCmd]

/-! ## Styling removal and help-text search (used to state the contract, not in the source) -/

/-- Scanner state while removing ANSI control sequences. -/
inductive AnsiState where
  | text | esc | csi
  deriving DecidableEq, Repr

/-- Drop every `ESC [ ... final-byte` control sequence, keep all other characters. -/
def stripANSIAux : AnsiState → List Char → List Char
  | _, [] => []
  | .text, c :: cs =>
    if c.toNat = 27 then stripANSIAux .esc cs else c :: stripANSIAux .text cs
  | .esc, c :: cs =>
    if c = '[' then stripANSIAux .csi cs else stripANSIAux .text cs
  | .csi, c :: cs =>
    if 64 ≤ c.toNat ∧ c.toNat ≤ 126 then stripANSIAux .text cs else stripANSIAux .csi cs

/-- A string with its ANSI styling removed. -/
def stripANSI (s : String) : String := ⟨stripANSIAux .text s.data⟩

/-- The help text `text` contains `phrase` as a contiguous substring. -/
def mentions (text phrase : String) : Bool :=
  text.data.tails.any (fun t => phrase.data.isPrefixOf t)

/-! ## Execute -/

/-- Observable events of `Execute`: a line on standard output, or process exit. -/
inductive Event where
  | println (s : String)
  | exit (code : Nat)
  deriving DecidableEq, Repr

/-- Execute - Execute the root command. `rootResult` is what `rootCmd.Execute()` returned:
`none` for a nil error, `some e` for an error whose text is `e`. -/
def Execute (rootResult : Option String) : List Event :=
  match rootResult with
  | some err => [.println err, .exit 1]
  | none => []

/-- The exit status a trace ends the process with, if it does. -/
def exitStatus : List Event → Option Nat
  | [] => none
  | .exit code :: _ => some code
  | .println _ :: rest => exitStatus rest

/-! ## General facts about the embedding -/

set_option maxHeartbeats 1000000 in
/-- The registry `init` returns, in closed form: `init` never fails. -/
theorem init_eq (numCPU : Int) : init numCPU = .ok (initRegistry numCPU) := rfl

/-- On the range of a non-negative Go `int`, `uint(x)` keeps the number. -/
theorem toUint_of_nonneg (x : Int) (h0 : 0 ≤ x) (h1 : x < 2 ^ 63) : toUint x = x.toNat := by
  unfold toUint
  rw [Int.emod_eq_of_lt h0 (by omega)]

/-- Looking up another name is unaffected by `replace`. -/
theorem FlagSet.Lookup_replace_ne (fs : FlagSet) (name other : String) (v : Value)
    (h : other ≠ name) :
    ((fs.replace name v).Lookup other).map Flag.value = (fs.Lookup other).map Flag.value := by
  induction fs with
  | nil => rfl
  | cons f rest ih =>
    have ih' : Option.map Flag.value (List.find? (fun g => g.name == other)
        (FlagSet.replace rest name v)) =
        Option.map Flag.value (List.find? (fun g => g.name == other) rest) := ih
    show Option.map Flag.value (List.find? (fun g => g.name == other)
        ((if f.name == name then { f with value := v, changed := true } else f) ::
          FlagSet.replace rest name v)) =
      Option.map Flag.value (List.find? (fun g => g.name == other) (f :: rest))
    by_cases hf : f.name = name
    · have hne : ¬ f.name = other := fun e => h (e ▸ hf)
      have e1 : (f.name == name) = true := by simp [hf]
      rw [if_pos e1, List.find?_cons_of_neg _ (by simpa using hne),
        List.find?_cons_of_neg _ (by simpa using hne)]
      exact ih'
    · have e1 : ¬ (f.name == name) = true := by simpa using hf
      rw [if_neg e1]
      by_cases ho : f.name = other
      · rw [List.find?_cons_of_pos _ (by simpa using ho),
          List.find?_cons_of_pos _ (by simpa using ho)]
      · rw [List.find?_cons_of_neg _ (by simpa using ho),
          List.find?_cons_of_neg _ (by simpa using ho)]
        exact ih'

/-- Setting one flag leaves the value of every flag with another name as it was. -/
theorem FlagSet.Set_valueOf_ne (fs fs' : FlagSet) (name other : String) (arg : Value)
    (hset : fs.Set name arg = .ok fs') (h : other ≠ name) :
    fs'.valueOf other = fs.valueOf other := by
  unfold FlagSet.Set at hset
  split at hset
  · cases hset
  · split at hset
    · cases hset
    · cases hset
      exact FlagSet.Lookup_replace_ne fs name other _ h

/-- A number in the 64-bit range is accepted by a `uint` flag and becomes its value. -/
theorem Value.Set_uint (old : Nat) (changed : Bool) (n : Nat) (h : n < 2 ^ 64) :
    Value.Set (.uint old) changed (.uint n) = .ok (.uint n) := by
  unfold Value.Set
  exact if_pos h

/-- A number from 2^64 on is rejected by a `uint` flag. -/
theorem Value.Set_uint_out_of_range (old : Nat) (changed : Bool) (n : Nat) (h : 2 ^ 64 ≤ n) :
    Value.Set (.uint old) changed (.uint n) = .error "value out of range" := by
  have h2 : ¬ n < 2 ^ 64 := by omega
  unfold Value.Set
  exact if_neg h2

/-- Setting a flag that exists to a value its type accepts succeeds and stores the value. -/
theorem FlagSet.Set_of_Lookup (fs : FlagSet) (name : String) (f : Flag) (arg v : Value)
    (hl : fs.Lookup name = some f) (hv : f.value.Set f.changed arg = .ok v) :
    fs.Set name arg = .ok (fs.replace name v) := by
  simp [FlagSet.Set, hl, hv]

/-- When `AddFlag` succeeds the flag was appended and its name (and shorthand, if any) was free. -/
theorem FlagSet.AddFlag_ok_iff (fs fs' : FlagSet) (flag : Flag) :
    fs.AddFlag flag = .ok fs' ↔
      fs' = fs ++ [flag] ∧ flag.name ∉ fs.names ∧
        (flag.shorthand = "" ∨
          (flag.shorthand.utf8ByteSize ≤ 1 ∧ flag.shorthand ∉ fs.shorthands)) := by
  unfold FlagSet.AddFlag FlagSet.names FlagSet.shorthands
  by_cases h1 : (fs.any fun g => g.name == flag.name) = true
  · simp only [h1, if_true]
    constructor
    · intro h; cases h
    · rintro ⟨-, hn, -⟩
      exfalso; apply hn
      simp only [List.any_eq_true, beq_iff_eq] at h1
      obtain ⟨g, hg, e⟩ := h1
      exact List.mem_map.mpr ⟨g, hg, e⟩
  · have hn : flag.name ∉ fs.map Flag.name := by
      intro hm
      obtain ⟨g, hg, e⟩ := List.mem_map.mp hm
      exact h1 (List.any_eq_true.mpr ⟨g, hg, by simp [e]⟩)
    simp only [h1, if_false]
    by_cases h2 : flag.shorthand = ""
    · simp [h2, hn, eq_comm]
    · have h2' : (flag.shorthand == "") = false := by simp [h2]
      simp only [h2', Bool.false_eq_true, if_false]
      by_cases h3 : flag.shorthand.utf8ByteSize > 1
      · simp only [h3, if_true]
        constructor
        · intro h; cases h
        · rintro ⟨-, -, h | ⟨h, -⟩⟩
          · exact absurd h h2
          · omega
      · simp only [h3, if_false]
        by_cases h4 : (fs.any fun g => g.shorthand != "" && g.shorthand == flag.shorthand) = true
        · simp only [h4, if_true]
          constructor
          · intro h; cases h
          · rintro ⟨-, -, h | ⟨-, h⟩⟩
            · exact absurd h h2
            · exfalso; apply h
              simp only [List.any_eq_true, Bool.and_eq_true, bne_iff_ne, beq_iff_eq] at h4
              obtain ⟨g, hg, hne, e⟩ := h4
              simp only [List.mem_filter, List.mem_map, bne_iff_ne]
              exact ⟨⟨g, hg, e⟩, h2⟩
        · simp only [h4, if_false]
          have hs : flag.shorthand ∉ (fs.map Flag.shorthand).filter (fun s => s != "") := by
            intro hm
            simp only [List.mem_filter, List.mem_map, bne_iff_ne] at hm
            obtain ⟨⟨g, hg, e⟩, -⟩ := hm
            apply h4
            simp only [List.any_eq_true, Bool.and_eq_true, bne_iff_ne, beq_iff_eq]
            exact ⟨g, hg, by rw [e]; exact h2, e⟩
          constructor
          · intro h
            cases h
            exact ⟨rfl, hn, Or.inr ⟨by omega, hs⟩⟩
          · rintro ⟨h, -, -⟩
            rw [h]
            rfl

/-! ## The operator surface after `init` -/

/-- C1 (as stated, fails): with 8 CPUs `init` succeeds and the declared name `check` is not
a flag of `sortCmd`, so the sort command exposes no verify flag. -/
theorem sort_verify_flag_counterexample :
    ∃ r, init 8 = .ok r ∧ (r.Flags sortCmd).Lookup checkFlagStr = none ∧
      checkFlagStr ∉ (r.Flags sortCmd).names :=
  ⟨initRegistry 8, init_eq 8, rfl, by decide⟩

/-- C1 (amended): after `init` the flags of `sortCmd` are exactly index, output, workers,
max-memory, temp and no-cleanup (input index file, output, worker count, memory ceiling in MB,
temp dir, cleanup flag), with string, string, uint, uint, string and bool defaults; the
declared name `check` is registered on no command. -/
theorem sort_flags_registered (numCPU : Int) :
    ∃ r, init numCPU = .ok r ∧
      (r.Flags sortCmd).names = [indexFlagStr, outputFlagStr, workersFlagStr, maxMemoryFlagStr,
        tempDirFlagStr, noCleanupFlagStr] ∧
      (r.Flags sortCmd).defaultOf indexFlagStr = some (.str "") ∧
      (r.Flags sortCmd).defaultOf outputFlagStr = some (.str "") ∧
      (r.Flags sortCmd).defaultOf workersFlagStr = some (.uint (toUint numCPU)) ∧
      (r.Flags sortCmd).defaultOf maxMemoryFlagStr = some (.uint 1024) ∧
      (r.Flags sortCmd).defaultOf tempDirFlagStr = some (.str "") ∧
      (r.Flags sortCmd).defaultOf noCleanupFlagStr = some (.bool false) ∧
      (∀ c, (r.Flags c).Lookup checkFlagStr = none) :=
  ⟨initRegistry numCPU, init_eq numCPU, rfl, rfl, rfl, rfl, rfl, rfl, rfl,
    fun c => by cases c <;> rfl⟩

/-- C2 (as stated, fails): with 8 CPUs `init` succeeds and the declared name `verbose` is not
a flag of `searchCmd`, so the search command exposes no verbose flag. -/
theorem search_verbose_flag_counterexample :
    ∃ r, init 8 = .ok r ∧ (r.Flags searchCmd).Lookup verboseFlagStr = none ∧
      verboseFlagStr ∉ (r.Flags searchCmd).names :=
  ⟨initRegistry 8, init_eq 8, rfl, by decide⟩

/-- C2 (amended): after `init` the flags of `searchCmd` are exactly index, json and value
(index path, record-store path, query value), all strings defaulting to the empty string;
the declared name `verbose` is registered on no command. -/
theorem search_flags_registered (numCPU : Int) :
    ∃ r, init numCPU = .ok r ∧
      (r.Flags searchCmd).names = [indexFlagStr, jsonFlagStr, valueFlagStr] ∧
      (r.Flags searchCmd).defaultOf indexFlagStr = some (.str "") ∧
      (r.Flags searchCmd).defaultOf jsonFlagStr = some (.str "") ∧
      (r.Flags searchCmd).defaultOf valueFlagStr = some (.str "") ∧
      (∀ c, (r.Flags c).Lookup verboseFlagStr = none) :=
  ⟨initRegistry numCPU, init_eq numCPU, rfl, rfl, rfl, rfl, fun c => by cases c <;> rfl⟩

/-- C3 (as stated, fails): with 8 CPUs `init` succeeds and neither declared name `conf` nor
`generate` is a flag of `rootCmd`. -/
theorem root_config_flags_counterexample :
    ∃ r, init 8 = .ok r ∧ (r.Flags rootCmd).Lookup configFlagStr = none ∧
      (r.Flags rootCmd).Lookup generateFlagStr = none :=
  ⟨initRegistry 8, init_eq 8, rfl, rfl⟩

/-- C3 (amended): after `init` the root command has the key list `keys` (default user, email)
and the per-stage worker counts `workers-bloom`, `workers-index`, `workers-sort`, next to
temp, json, output, the four filter flags and max-memory; the declared names `conf` and
`generate` are registered on no command. -/
theorem root_flags_registered (numCPU : Int) :
    ∃ r, init numCPU = .ok r ∧
      (r.Flags rootCmd).names = [keysFlagStr, tempDirFlagStr, jsonFlagStr, outputFlagStr,
        bloomWorkersFlagStr, indexWorkersFlagStr, sortWorkersFlagStr, filterSizeFlagStr,
        filterHashesFlagStr, filterLoadFlagStr, filterSaveFlagStr, maxMemoryFlagStr] ∧
      (r.Flags rootCmd).defaultOf keysFlagStr = some (.strSlice ["user", "email"]) ∧
      (r.Flags rootCmd).defaultOf bloomWorkersFlagStr = some (.uint 1) ∧
      (r.Flags rootCmd).defaultOf indexWorkersFlagStr = some (.uint (toUint numCPU)) ∧
      (r.Flags rootCmd).defaultOf sortWorkersFlagStr = some (.uint (toUint numCPU)) ∧
      (∀ c, (r.Flags c).Lookup configFlagStr = none ∧
        (r.Flags c).Lookup generateFlagStr = none) :=
  ⟨initRegistry numCPU, init_eq numCPU, rfl, rfl, rfl, rfl, rfl,
    fun c => by cases c <;> exact ⟨rfl, rfl⟩⟩

/-- C4: after `init`, normalize has target, format, recursive and output; bloom has json,
output, filter-size (help text in GBs), filter-hashes, filter-load, filter-save and workers;
index has json, output, key, workers and temp; the default of index's key flag is email,
one of email, user, domain. -/
theorem stage_flags_registered (numCPU : Int) :
    ∃ r, init numCPU = .ok r ∧
      [targetFlagStr, formatFlagStr, recursiveFlagStr, outputFlagStr] ⊆
        (r.Flags normalizeCmd).names ∧
      [jsonFlagStr, outputFlagStr, filterSizeFlagStr, filterHashesFlagStr, filterLoadFlagStr,
        filterSaveFlagStr, workersFlagStr] ⊆ (r.Flags bloomCmd).names ∧
      (r.Flags bloomCmd).usageOf filterSizeFlagStr = some "bloom filter size in GBs" ∧
      [jsonFlagStr, outputFlagStr, keyFlagStr, workersFlagStr, tempDirFlagStr] ⊆
        (r.Flags indexCmd).names ∧
      (r.Flags indexCmd).defaultOf keyFlagStr = some (.str "email") ∧
      "email" ∈ ["email", "user", "domain"] := by
  refine ⟨initRegistry numCPU, init_eq numCPU, ?_, ?_, rfl, ?_, rfl, by decide⟩
  · show _ ⊆ ["target", "format", "output", "recursive", "skip-prefix", "skip-suffix"]
    decide
  · show _ ⊆ ["json", "output", "append", "workers", "filter-size", "filter-hashes",
      "filter-load", "filter-save"]
    decide
  · show _ ⊆ ["json", "output", "workers", "key", "no-cleanup", "temp"]
    decide

/-- C5: the root command has three distinct worker flags, `workers-bloom` (-W),
`workers-index` (-w) and `workers-sort` (-s), and each shorthand resolves to its own flag;
their defaults are 1, the CPU count and the CPU count, all positive when the CPU count is at
least 1; setting any one of them to a 64-bit number changes that flag and leaves the other
two at their defaults. The CPU count is a Go `int`, hence below 2^63. -/
theorem root_worker_flags_independent (numCPU : Int) (hcpu : 1 ≤ numCPU)
    (hint : numCPU < 2 ^ 63) (v : Nat) (hv : v < 2 ^ 64) :
    ∃ r, init numCPU = .ok r ∧
      [bloomWorkersFlagStr, indexWorkersFlagStr, sortWorkersFlagStr].Nodup ∧
      ((r.Flags rootCmd).Lookup bloomWorkersFlagStr).map Flag.shorthand = some "W" ∧
      ((r.Flags rootCmd).Lookup indexWorkersFlagStr).map Flag.shorthand = some "w" ∧
      ((r.Flags rootCmd).Lookup sortWorkersFlagStr).map Flag.shorthand = some "s" ∧
      ["W", "w", "s"].Nodup ∧
      (r.Flags rootCmd).ShorthandLookup "W" =
        .ok ((r.Flags rootCmd).Lookup bloomWorkersFlagStr) ∧
      (r.Flags rootCmd).ShorthandLookup "w" =
        .ok ((r.Flags rootCmd).Lookup indexWorkersFlagStr) ∧
      (r.Flags rootCmd).ShorthandLookup "s" =
        .ok ((r.Flags rootCmd).Lookup sortWorkersFlagStr) ∧
      (r.Flags rootCmd).defaultOf bloomWorkersFlagStr = some (.uint 1) ∧
      (r.Flags rootCmd).defaultOf indexWorkersFlagStr = some (.uint numCPU.toNat) ∧
      (r.Flags rootCmd).defaultOf sortWorkersFlagStr = some (.uint numCPU.toNat) ∧
      0 < numCPU.toNat ∧
      (∃ fs, (r.Flags rootCmd).Set bloomWorkersFlagStr (.uint v) = .ok fs ∧
        fs.valueOf bloomWorkersFlagStr = some (.uint v) ∧
        fs.valueOf indexWorkersFlagStr = (r.Flags rootCmd).defaultOf indexWorkersFlagStr ∧
        fs.valueOf sortWorkersFlagStr = (r.Flags rootCmd).defaultOf sortWorkersFlagStr) ∧
      (∃ fs, (r.Flags rootCmd).Set indexWorkersFlagStr (.uint v) = .ok fs ∧
        fs.valueOf indexWorkersFlagStr = some (.uint v) ∧
        fs.valueOf bloomWorkersFlagStr = (r.Flags rootCmd).defaultOf bloomWorkersFlagStr ∧
        fs.valueOf sortWorkersFlagStr = (r.Flags rootCmd).defaultOf sortWorkersFlagStr) ∧
      (∃ fs, (r.Flags rootCmd).Set sortWorkersFlagStr (.uint v) = .ok fs ∧
        fs.valueOf sortWorkersFlagStr = some (.uint v) ∧
        fs.valueOf bloomWorkersFlagStr = (r.Flags rootCmd).defaultOf bloomWorkersFlagStr ∧
        fs.valueOf indexWorkersFlagStr = (r.Flags rootCmd).defaultOf indexWorkersFlagStr) := by
  have hu : toUint numCPU = numCPU.toNat := toUint_of_nonneg numCPU (by omega) hint
  refine ⟨initRegistry numCPU, init_eq numCPU, by decide, rfl, rfl, rfl, by decide,
    rfl, rfl, rfl, rfl, ?_, ?_, by omega,
    ⟨_, FlagSet.Set_of_Lookup _ _ _ _ _ rfl (Value.Set_uint _ _ v hv), rfl, rfl, rfl⟩,
    ⟨_, FlagSet.Set_of_Lookup _ _ _ _ _ rfl (Value.Set_uint _ _ v hv), rfl, rfl, rfl⟩,
    ⟨_, FlagSet.Set_of_Lookup _ _ _ _ _ rfl (Value.Set_uint _ _ v hv), rfl, rfl, rfl⟩⟩
  · rw [← hu]; rfl
  · rw [← hu]; rfl

/-- C5 at 8 CPUs, setting the bloom worker count to 3. -/
theorem root_worker_flags_independent_witness :
    (1 : Int) ≤ 8 ∧ (8 : Int) < 2 ^ 63 ∧ 3 < 2 ^ 64 ∧
    ∃ r, init 8 = .ok r ∧
      (r.Flags rootCmd).defaultOf indexWorkersFlagStr = some (.uint 8) ∧
      ∃ fs, (r.Flags rootCmd).Set bloomWorkersFlagStr (.uint 3) = .ok fs ∧
        fs.valueOf bloomWorkersFlagStr = some (.uint 3) ∧
        fs.valueOf indexWorkersFlagStr = some (.uint 8) ∧
        fs.valueOf sortWorkersFlagStr = some (.uint 8) := by
  refine ⟨by decide, by decide, by decide, ?_⟩
  obtain ⟨r, hr, -, -, -, -, -, -, -, -, -, hi, hs, -, ⟨fs, hset, hb, hvi, hvs⟩, -, -⟩ :=
    root_worker_flags_independent 8 (by decide) (by decide) 3 (by decide)
  exact ⟨r, hr, hi, fs, hset, hb, hvi.trans hi, hvs.trans hs⟩

/-- C6: when the root command returns an error, `Execute` prints it and then exits with
status 1; when it returns no error, `Execute` does nothing and returns normally; so the
process exits non-zero exactly when the root command failed. -/
theorem Execute_exit_status (err : String) (rootResult : Option String) :
    Execute (some err) = [.println err, .exit 1] ∧
      Execute none = [] ∧
      (exitStatus (Execute rootResult) = some 1 ↔ rootResult ≠ none) ∧
      (exitStatus (Execute rootResult) = none ↔ rootResult = none) ∧
      (∀ code, exitStatus (Execute rootResult) = some code → code = 1 ∧ code ≠ 0) := by
  refine ⟨rfl, rfl, ?_, ?_, ?_⟩
  · cases rootResult <;> simp [Execute, exitStatus]
  · cases rootResult <;> simp [Execute, exitStatus]
  · intro code h
    cases rootResult <;> simp [Execute, exitStatus] at h
    omega

/-- C7: the prefixes Info, Warn, Debug, Woot are pairwise distinct; each is bold, a colour, a
bracketed marker and normal; with the ANSI sequences removed they are the markers
`[*] `, `[!] `, `[-] `, `[$] `, which are pairwise distinct as well. -/
theorem severity_prefixes_distinct :
    [Info, Warn, Debug, Woot].Nodup ∧
      Info = bold ++ cyan ++ "[*] " ++ normal ∧
      Warn = bold ++ red ++ "[!] " ++ normal ∧
      Debug = bold ++ purple ++ "[-] " ++ normal ∧
      Woot = bold ++ green ++ "[$] " ++ normal ∧
      [bold, cyan, red, purple, green, normal].map stripANSI = ["", "", "", "", "", ""] ∧
      [Info, Warn, Debug, Woot].map stripANSI = ["[*] ", "[!] ", "[-] ", "[$] "] ∧
      ["[*] ", "[!] ", "[-] ", "[$] "].Nodup ∧
      ([Info, Warn, Debug, Woot].map stripANSI).Nodup := by
  decide

/-- C8: the commands with a memory ceiling are exactly root and sort; both register it as
`max-memory`, a uint with default `defaultMaxMemory` = 1024, under a help text that gives
the unit (MBs) and says the value is not exact; 1024 MB is `gb` = 2^30 bytes. -/
theorem max_memory_flag (numCPU : Int) :
    ∃ r, init numCPU = .ok r ∧
      (∀ c, (r.Flags c).Lookup maxMemoryFlagStr ≠ none ↔ c = rootCmd ∨ c = sortCmd) ∧
      (r.Flags rootCmd).defaultOf maxMemoryFlagStr = some (.uint defaultMaxMemory) ∧
      (r.Flags sortCmd).defaultOf maxMemoryFlagStr = some (.uint defaultMaxMemory) ∧
      defaultMaxMemory = 1024 ∧
      (∃ u, (r.Flags rootCmd).usageOf maxMemoryFlagStr = some u ∧
        (r.Flags sortCmd).usageOf maxMemoryFlagStr = some u ∧
        mentions u "max memory in MBs" = true ∧ mentions u "this is not exact" = true) ∧
      defaultMaxMemory * mb = gb ∧ gb = 2 ^ 30 := by
  refine ⟨initRegistry numCPU, init_eq numCPU, ?_, rfl, rfl, rfl,
    ⟨_, rfl, rfl, by decide, by decide⟩, by decide, by decide⟩
  intro c
  cases c <;> simp [initRegistry, Registry.Flags, FlagSet.Lookup, maxMemoryFlagStr,
    keysFlagStr, tempDirFlagStr, jsonFlagStr, outputFlagStr, bloomWorkersFlagStr,
    indexWorkersFlagStr, sortWorkersFlagStr, filterSizeFlagStr, filterHashesFlagStr,
    filterLoadFlagStr, filterSaveFlagStr, detailsFlagStr, targetFlagStr, formatFlagStr,
    recursiveFlagStr, skipPrefixFlagStr, skipSuffixFlagStr, outputAppendFlagStr,
    workersFlagStr, keyFlagStr, noCleanupFlagStr, indexFlagStr, valueFlagStr]

/-- C9: `init` completes without reaching a registration panic, all seven subcommands are
attached to the root, and on every one of the eight commands the long names are pairwise
distinct, the shorthands are pairwise distinct (case-sensitively) and one byte long, and
neither the name `help` nor the shorthand `h` is taken. -/
theorem init_registers_without_redefinition (numCPU : Int) :
    ∃ r, init numCPU = .ok r ∧
      r.commands = [versionCmd, normalizeCmd, bloomCmd, indexCmd, sortCmd, searchCmd,
        parquetCmd] ∧
      ∀ c, (r.Flags c).names.Nodup ∧ (r.Flags c).shorthands.Nodup ∧
        (r.Flags c).shorthands.length = (r.Flags c).names.length ∧
        ((r.Flags c).shorthands.all fun s => s.utf8ByteSize == 1) = true ∧
        "help" ∉ (r.Flags c).names ∧ "h" ∉ (r.Flags c).shorthands := by
  refine ⟨initRegistry numCPU, init_eq numCPU, rfl, ?_⟩
  intro c
  cases c <;> exact of_decide_eq_true rfl

/-- C10 (as stated, fails): with 8 CPUs the root command and the index command share the
flag `output` with different defaults (empty against `leakdb.idx`), and the key selection
differs as well (root `keys` defaults to user and email, index `key` to email). -/
theorem shared_defaults_counterexample :
    ∃ r, init 8 = .ok r ∧
      (∃ f ∈ r.Flags rootCmd, ∃ g ∈ r.Flags indexCmd,
        f.name = g.name ∧ f.defValue ≠ g.defValue) ∧
      (r.Flags rootCmd).defaultOf outputFlagStr = some (.str "") ∧
      (r.Flags indexCmd).defaultOf outputFlagStr = some (.str "leakdb.idx") ∧
      (r.Flags rootCmd).defaultOf keysFlagStr = some (.strSlice ["user", "email"]) ∧
      (r.Flags indexCmd).defaultOf keyFlagStr = some (.str "email") := by
  refine ⟨initRegistry 8, init_eq 8, ?_, rfl, rfl, rfl, rfl⟩
  decide

/-- C10 (amended): every flag the root command shares by name with normalize, bloom, index
or sort has the same default on both, except `output` on index; filter-size is 8,
filter-hashes 14, filter-load and filter-save empty, max-memory 1024 and temp empty on both
sides; root `workers-bloom` and bloom `workers` default to 1; root `workers-index`,
`workers-sort`, index `workers` and sort `workers` default to the CPU count. -/
theorem shared_defaults_agree (numCPU : Int) :
    ∃ r, init numCPU = .ok r ∧
      (∀ c ∈ [normalizeCmd, bloomCmd, indexCmd, sortCmd],
        ∀ f ∈ r.Flags rootCmd, ∀ g ∈ r.Flags c, f.name = g.name →
          ¬ (c = indexCmd ∧ f.name = outputFlagStr) → f.defValue = g.defValue) ∧
      (r.Flags rootCmd).defaultOf filterSizeFlagStr = some (.uint 8) ∧
      (r.Flags bloomCmd).defaultOf filterSizeFlagStr = some (.uint 8) ∧
      (r.Flags rootCmd).defaultOf filterHashesFlagStr = some (.uint 14) ∧
      (r.Flags bloomCmd).defaultOf filterHashesFlagStr = some (.uint 14) ∧
      (r.Flags rootCmd).defaultOf filterLoadFlagStr = some (.str "") ∧
      (r.Flags bloomCmd).defaultOf filterLoadFlagStr = some (.str "") ∧
      (r.Flags rootCmd).defaultOf filterSaveFlagStr = some (.str "") ∧
      (r.Flags bloomCmd).defaultOf filterSaveFlagStr = some (.str "") ∧
      (r.Flags rootCmd).defaultOf bloomWorkersFlagStr = some (.uint 1) ∧
      (r.Flags bloomCmd).defaultOf workersFlagStr = some (.uint 1) ∧
      (r.Flags rootCmd).defaultOf indexWorkersFlagStr = some (.uint (toUint numCPU)) ∧
      (r.Flags indexCmd).defaultOf workersFlagStr = some (.uint (toUint numCPU)) ∧
      (r.Flags rootCmd).defaultOf sortWorkersFlagStr = some (.uint (toUint numCPU)) ∧
      (r.Flags sortCmd).defaultOf workersFlagStr = some (.uint (toUint numCPU)) ∧
      (r.Flags rootCmd).defaultOf maxMemoryFlagStr = some (.uint 1024) ∧
      (r.Flags sortCmd).defaultOf maxMemoryFlagStr = some (.uint 1024) ∧
      (r.Flags rootCmd).defaultOf tempDirFlagStr = some (.str "") ∧
      (r.Flags indexCmd).defaultOf tempDirFlagStr = some (.str "") ∧
      (r.Flags sortCmd).defaultOf tempDirFlagStr = some (.str "") := by
  refine ⟨initRegistry numCPU, init_eq numCPU, ?_, rfl, rfl, rfl, rfl, rfl, rfl, rfl, rfl,
    rfl, rfl, rfl, rfl, rfl, rfl, rfl, rfl, rfl, rfl, rfl⟩
  exact of_decide_eq_true rfl

end Curator
